import Mathlib

/-
Verification of the geospatial classification core of
sludge-hub-inaturalist-analysis (src/spatial_analysis.py).

The script loads cleaned iNaturalist observations, drops rows with missing
latitude/longitude, builds geodesic buffer polygons around the property
centroid and the apiary point (radius in miles, converted to meters with the
constant 1609.34 and buffered in a projected CRS), tests shapely containment
of every observation against the property polygon and every buffer, and
computes the planar distance of each observation to the property center in
meters and in miles.

Embedding conventions:
  - Coordinates are rational pairs.  The angular (EPSG:4326) and planar
    (projected, meters) coordinate systems are related by an abstract,
    invertible reprojection recorded in a Frame structure; this models the
    geopandas to_crs transform, which the source treats as an exact
    invertible map between the two systems.
  - shapely's buffer of a point is modelled as the exact planar disc of the
    requested radius (the 64-gon approximation error of the library is
    abstracted away); shapely returns an empty polygon when the buffer
    distance is not positive, which the model reflects with an explicit
    positivity guard.
  - shapely's polygon.contains(point) is true exactly when the point lies in
    the interior of the polygon (GEOS point location: boundary points are not
    contained).  For the property polygon this is embedded as an exact
    rational crossing-number point-in-polygon test that first rules out
    boundary points; for a buffer it is strict inequality against the radius.
  - Distances are real numbers (square root of the rational squared planar
    distance).  Inside the pipeline record, a distance value is carried in
    exact form as its squared planar value together with the unit divisor:
    Val.vd sq d denotes sqrt(sq)/d meters-over-divisor, with divisor 1 for
    the meters column and 1609.34 for the miles column.
  - The pandas DataFrame is a list of rows; the classification columns the
    script assigns are an ordered association list from column key to value,
    where assigning an existing key replaces the value in place (pandas
    column-assignment semantics) and a new key is appended at the end.
-/

namespace SpatialAnalysis

/-- A point as a pair of rational coordinates; x is longitude (or easting),
y is latitude (or northing). -/
structure Pt where
  x : ℚ
  y : ℚ
deriving DecidableEq

/-- MILES_TO_METERS = 1609.34, spatial_analysis.py line 31. -/
def MILES_TO_METERS : ℚ := 160934 / 100

/-- Squared Euclidean distance between two planar points (shapely
Point.distance squared, before the square root). -/
def sqDist (a b : Pt) : ℚ := (a.x - b.x) ^ 2 + (a.y - b.y) ^ 2

/-- A matched angular/planar CRS pair (GEOGRAPHIC_CRS and PROJECTED_CRS).
toPlanar models GeoSeries.to_crs(PROJECTED_CRS) from geographic coordinates,
toAngular the reverse transform to_crs(GEOGRAPHIC_CRS); the two are mutually
inverse on the shared domain. -/
structure Frame where
  toPlanar : Pt → Pt
  toAngular : Pt → Pt
  angular_planar : ∀ p, toAngular (toPlanar p) = p
  planar_angular : ∀ q, toPlanar (toAngular q) = q

/-- The data of the polygon produced by create_geodesic_buffer: the planar
image of the center and the buffer distance in meters.  The polygon itself is
the planar disc of this radius about this center, reprojected back to the
angular frame (see angularBufferRegion). -/
structure BufferZone where
  planarCenter : Pt
  radiusMeters : ℚ
deriving DecidableEq

/-- create_geodesic_buffer (spatial_analysis.py lines 62-95): reproject the
center to the projected CRS and buffer it by radius_miles * MILES_TO_METERS
meters; the resulting polygon is carried by its planar center and radius. -/
def create_geodesic_buffer (F : Frame) (center : Pt) (radius_miles : ℚ) : BufferZone :=
  { planarCenter := F.toPlanar center
    radiusMeters := radius_miles * MILES_TO_METERS }

/-- Membership of a planar point in the buffer polygon, tested in the planar
frame: shapely's contains is true exactly on the interior, and the buffer of
a point by a non-positive distance is an empty polygon, hence the guard. -/
def bufferContainsPlanar (z : BufferZone) (q : Pt) : Bool :=
  decide (0 < z.radiusMeters) && decide (sqDist q z.planarCenter < z.radiusMeters ^ 2)

/-- buffer_polygon.contains(obs_point) (spatial_analysis.py lines 164-166,
178-180): the observation, given in angular coordinates, lies in the buffer
polygon exactly when its planar image lies in the planar disc. -/
def bufferContains (F : Frame) (z : BufferZone) (p : Pt) : Bool :=
  bufferContainsPlanar z (F.toPlanar p)

/-- The open planar disc that the buffer polygon approximates (empty when the
radius is not positive, as shapely's buffer of a point then is). -/
def planarDisc (z : BufferZone) : Set Pt :=
  { q | 0 < z.radiusMeters ∧ sqDist q z.planarCenter < z.radiusMeters ^ 2 }

/-- The buffer polygon expressed back in the angular frame: the vertex-wise
reprojection of the planar circle to angular coordinates bounds exactly the
image of the planar disc under the inverse transform. -/
def angularBufferRegion (F : Frame) (z : BufferZone) : Set Pt :=
  F.toAngular '' planarDisc z

/-- Planar Euclidean distance in meters between the planar images of a center
and an observation (obs_point_proj.distance(property_center_proj),
spatial_analysis.py lines 220-222). -/
noncomputable def planarDistanceMeters (F : Frame) (center p : Pt) : ℝ :=
  Real.sqrt ((sqDist (F.toPlanar p) (F.toPlanar center) : ℚ) : ℝ)

/-- distance_from_property_center_miles (spatial_analysis.py lines 223-224):
the planar distance in meters divided by MILES_TO_METERS. -/
noncomputable def distance_from_property_center_miles (F : Frame) (center p : Pt) : ℝ :=
  planarDistanceMeters F center p / ((MILES_TO_METERS : ℚ) : ℝ)

/-- Consecutive vertex pairs of a closed ring (the last vertex connects back
to the first). -/
def cyclicPairs : List Pt → List (Pt × Pt)
  | [] => []
  | p :: ps => List.zip (p :: ps) (ps ++ [p])

/-- Twice the signed area of a ring (shoelace sum). -/
def shoelace2 (ring : List Pt) : ℚ :=
  ((cyclicPairs ring).map fun e => e.1.x * e.2.y - e.2.x * e.1.y).sum

/-- property_polygon.centroid (spatial_analysis.py line 103): the area
centroid of the polygon by the standard shoelace formula.  The degenerate
zero-area case (where shapely yields an empty centroid) is mapped to the
origin; no claim depends on it. -/
def ringCentroid (ring : List Pt) : Pt :=
  let a2 := shoelace2 ring
  if a2 = 0 then ⟨0, 0⟩
  else
    ⟨((cyclicPairs ring).map fun e => (e.1.x + e.2.x) * (e.1.x * e.2.y - e.2.x * e.1.y)).sum
        / (3 * a2),
      ((cyclicPairs ring).map fun e => (e.1.y + e.2.y) * (e.1.x * e.2.y - e.2.x * e.1.y)).sum
        / (3 * a2)⟩

/-- Cross product of the vectors a->b and a->p; zero exactly when p is on the
line through a and b. -/
def cross2 (a b p : Pt) : ℚ :=
  (b.x - a.x) * (p.y - a.y) - (b.y - a.y) * (p.x - a.x)

/-- Whether p lies on the closed segment from a to b. -/
def onSegment (a b p : Pt) : Bool :=
  decide (cross2 a b p = 0) && decide (min a.x b.x ≤ p.x) && decide (p.x ≤ max a.x b.x)
    && decide (min a.y b.y ≤ p.y) && decide (p.y ≤ max a.y b.y)

/-- Whether p lies on the boundary ring of the polygon. -/
def onRing (ring : List Pt) (p : Pt) : Bool :=
  (cyclicPairs ring).any fun e => onSegment e.1 e.2 p

/-- Whether the edge from a to b crosses the horizontal ray from p towards
positive x (standard crossing-number edge test, counting an upward edge at
its lower endpoint and a downward edge at its upper endpoint). -/
def edgeRayCrossing (a b p : Pt) : Bool :=
  (decide (a.y ≤ p.y) && decide (p.y < b.y) && decide (0 < cross2 a b p))
    || (decide (b.y ≤ p.y) && decide (p.y < a.y) && decide (cross2 a b p < 0))

/-- Number of ring edges crossing the rightward ray from p. -/
def crossingNumber (ring : List Pt) (p : Pt) : ℕ :=
  ((cyclicPairs ring).filter fun e => edgeRayCrossing e.1 e.2 p).length

/-- property_polygon.contains(obs_point) (spatial_analysis.py lines 140-142):
GEOS point location — the point is contained exactly when it is not on the
boundary and the crossing number of a ray from it is odd, i.e. when it lies
in the interior of the polygon. -/
def polyContains (ring : List Pt) (p : Pt) : Bool :=
  !onRing ring p && (crossingNumber ring p % 2 == 1)

/-- Column keys of the classification fields the script assigns, one
constructor per pandas column name: within_property,
within_{r}mile_property_center, within_{r}mile_apiary_center,
distance_from_property_center_meters, distance_from_property_center_miles.
Two equal radii yield the same f-string and hence the same key; distinct
constructors correspond to column names that can never coincide. -/
inductive Col where
  | within_property
  | within_mile_property_center (r : ℚ)
  | within_mile_apiary_center (r : ℚ)
  | distance_from_property_center_meters
  | distance_from_property_center_miles
deriving DecidableEq

/-- The column name f-string for a property-center buffer radius. -/
def propCol (r : ℚ) : Col := Col.within_mile_property_center r

/-- The column name f-string for an apiary-center buffer radius. -/
def apiaryCol (r : ℚ) : Col := Col.within_mile_apiary_center r

/-- A cell value: a boolean containment flag, or a planar distance carried in
exact form — Val.vd sq d denotes sqrt(sq)/d where sq is the squared planar
distance in square meters (divisor 1 for the meters column, MILES_TO_METERS
for the miles column). -/
inductive Val where
  | vb (b : Bool)
  | vd (sqMeters : ℚ) (divisor : ℚ)
deriving DecidableEq

/-- Pandas column assignment df[k] = v: replace the value in place if the
column name exists, append the new column at the end otherwise. -/
def setCol (k : Col) (v : Val) : List (Col × Val) → List (Col × Val)
  | [] => [(k, v)]
  | (k', v') :: rest => if k' = k then (k, v) :: rest else (k', v') :: setCol k v rest

/-- Read a column value by name. -/
def getCol (k : Col) : List (Col × Val) → Option Val
  | [] => none
  | (k', v) :: rest => if k' = k then some v else getCol k rest

/-- One row of the cleaned observation table: the identifier, the possibly
missing coordinates, and all remaining original attribute columns carried
through opaquely. -/
structure RawRow where
  id : ℤ
  latitude : Option ℚ
  longitude : Option ℚ
  attrs : List (String × String)
deriving DecidableEq

/-- Whether both coordinates are present (the complement of what
df_cleaned.dropna(subset=['latitude','longitude']) removes). -/
def hasCoords (r : RawRow) : Bool := r.latitude.isSome && r.longitude.isSome

/-- geopandas.points_from_xy(df.longitude, df.latitude): the observation
point of a row; only ever applied to rows that passed the dropna filter, so
the default is never observable in the pipeline. -/
def rowPoint (r : RawRow) : Pt := ⟨r.longitude.getD 0, r.latitude.getD 0⟩

/-- The configuration the script reads from config.py: the matched CRS pair,
the property boundary ring (from PROPERTY_COORDINATES_WKT_POLYGON), the
apiary point (APIARY_LON_DD, APIARY_LAT_DD) and BUFFER_RADII_MILES. -/
structure Config where
  frame : Frame
  propertyRing : List Pt
  apiaryCenter : Pt
  radii : List ℚ

/-- The containment flag for one property-center buffer radius
(spatial_analysis.py lines 158-166). -/
def propBufferFlag (cfg : Config) (p : Pt) (r : ℚ) : Bool :=
  bufferContains cfg.frame
    (create_geodesic_buffer cfg.frame (ringCentroid cfg.propertyRing) r) p

/-- The containment flag for one apiary-center buffer radius
(spatial_analysis.py lines 172-180). -/
def apiaryBufferFlag (cfg : Config) (p : Pt) (r : ℚ) : Bool :=
  bufferContains cfg.frame (create_geodesic_buffer cfg.frame cfg.apiaryCenter r) p

/-- The classification fields the script attaches to one observation row, in
assignment order: within_property (line 140), one within_{r}mile_property_center
per radius (lines 158-166), one within_{r}mile_apiary_center per radius
(lines 172-180), then distance_from_property_center_meters and
distance_from_property_center_miles (lines 220-224).  Each assignment uses
pandas setCol semantics, so a repeated radius writes to its earlier column. -/
def classifyRow (cfg : Config) (row : RawRow) : List (Col × Val) :=
  let p := rowPoint row
  let c0 := setCol Col.within_property (Val.vb (polyContains cfg.propertyRing p)) []
  let c1 := cfg.radii.foldl
    (fun cs r => setCol (propCol r) (Val.vb (propBufferFlag cfg p r)) cs) c0
  let c2 := cfg.radii.foldl
    (fun cs r => setCol (apiaryCol r) (Val.vb (apiaryBufferFlag cfg p r)) cs) c1
  let sq := sqDist (cfg.frame.toPlanar p) (cfg.frame.toPlanar (ringCentroid cfg.propertyRing))
  setCol Col.distance_from_property_center_miles (Val.vd sq MILES_TO_METERS)
    (setCol Col.distance_from_property_center_meters (Val.vd sq 1) c2)

/-- One output record: the original row, untouched, together with the
classification columns attached to it. -/
structure AnalyzedRow where
  row : RawRow
  cols : List (Col × Val)
deriving DecidableEq

/-- df_cleaned.dropna(subset=['latitude','longitude']) (line 128): keep the
rows with both coordinates present, in order. -/
def dropna (rows : List RawRow) : List RawRow := rows.filter hasCoords

/-- The count of removed rows the script reports (line 130):
original_len - len(df_cleaned). -/
def excludedCount (rows : List RawRow) : ℕ := rows.length - (dropna rows).length

/-- The in-memory pipeline of spatial_analysis.py lines 126-224: drop rows
with missing coordinates, then attach the classification fields to every
remaining row, preserving order. -/
def analyze (cfg : Config) (rows : List RawRow) : List AnalyzedRow :=
  (dropna rows).map fun r => ⟨r, classifyRow cfg r⟩

/-- A degenerate but valid matched CRS pair in which the planar frame equals
the angular frame; used to instantiate witnesses. -/
def idFrame : Frame :=
  { toPlanar := id, toAngular := id
    angular_planar := fun _ => rfl, planar_angular := fun _ => rfl }

/-- A concrete square property ring for witnesses. -/
def unitSquare : List Pt := [⟨0, 0⟩, ⟨1, 0⟩, ⟨1, 1⟩, ⟨0, 1⟩]

/-- A concrete apiary center far from the unit square. -/
def apiaryFar : Pt := ⟨2000000, 0⟩

/-- A concrete configuration with a single one-mile radius. -/
def cfgA : Config := ⟨idFrame, unitSquare, apiaryFar, [1]⟩

/-- The same configuration with a duplicated radius entry. -/
def cfgDup : Config := ⟨idFrame, unitSquare, apiaryFar, [1, 1]⟩

/-- The same configuration with a negative radius entry. -/
def cfgNeg : Config := ⟨idFrame, unitSquare, apiaryFar, [-1]⟩

/-- A concrete observation row at the origin (a corner of the square). -/
def row0 : RawRow := ⟨1, some 0, some 0, [("taxon.name", "Apis mellifera")]⟩

/-- A row whose latitude 999 is far outside the valid angular range. -/
def rowBad : RawRow := ⟨2, some 999, some 0, []⟩

/-- A row whose point (0, 1/2) lies on the left edge of the unit square. -/
def rowEdge : RawRow := ⟨3, some (1 / 2), some 0, []⟩

/-- A row at planar distance exactly 1609.34 from the square's centroid. -/
def rowOnPropCircle : RawRow := ⟨4, some (1 / 2), some (1 / 2 + 160934 / 100), []⟩

/-- A row at planar distance exactly 1609.34 from the apiary center. -/
def rowOnApiaryCircle : RawRow := ⟨5, some 0, some (2000000 + 160934 / 100), []⟩

/-- A row at the centroid of the unit square. -/
def rowCentroid : RawRow := ⟨6, some (1 / 2), some (1 / 2), []⟩

/-- Unfolding of the buffer containment test. -/
theorem bufferContains_iff (F : Frame) (z : BufferZone) (p : Pt) :
    bufferContains F z p = true ↔
      0 < z.radiusMeters ∧ sqDist (F.toPlanar p) z.planarCenter < z.radiusMeters ^ 2 := by
  simp [bufferContains, bufferContainsPlanar]

/-- The squared planar distance is nonnegative. -/
theorem sqDist_nonneg (a b : Pt) : 0 ≤ sqDist a b := by
  simp only [sqDist]
  positivity

/-- C1: for every center point and every positive radius, create_geodesic_buffer
reprojects the center to the planar frame, buffers the projected point by
radius_miles * 1609.34 meters, and the polygon reprojected vertex-wise back to
the angular frame (the image of the planar disc under the inverse transform)
contains exactly the angular points whose planar images lie in that disc. -/
theorem create_geodesic_buffer_reprojects (F : Frame) (c : Pt) (r : ℚ) (h : 0 < r) :
    (create_geodesic_buffer F c r).planarCenter = F.toPlanar c ∧
      (create_geodesic_buffer F c r).radiusMeters = r * (160934 / 100) ∧
      ∀ p, p ∈ angularBufferRegion F (create_geodesic_buffer F c r) ↔
        bufferContains F (create_geodesic_buffer F c r) p = true := by
  refine ⟨rfl, rfl, fun p => ?_⟩
  constructor
  · rintro ⟨q, hq, rfl⟩
    rw [bufferContains_iff, F.planar_angular]
    exact hq
  · intro hp
    rw [bufferContains_iff] at hp
    exact ⟨F.toPlanar p, hp, F.angular_planar p⟩

/-- Witness for C1 at a concrete frame, center and radius. -/
theorem create_geodesic_buffer_reprojects_witness :
    (0 : ℚ) < 1 ∧
      (create_geodesic_buffer idFrame ⟨0, 0⟩ 1).planarCenter = idFrame.toPlanar ⟨0, 0⟩ ∧
      (create_geodesic_buffer idFrame ⟨0, 0⟩ 1).radiusMeters = 1 * (160934 / 100) ∧
      (⟨0, 0⟩ ∈ angularBufferRegion idFrame (create_geodesic_buffer idFrame ⟨0, 0⟩ 1) ↔
        bufferContains idFrame (create_geodesic_buffer idFrame ⟨0, 0⟩ 1) ⟨0, 0⟩ = true) := by
  have h := create_geodesic_buffer_reprojects idFrame ⟨0, 0⟩ 1 (by norm_num)
  exact ⟨by norm_num, h.1, h.2.1, h.2.2 ⟨0, 0⟩⟩

/-- C2: the distance engine reprojects both the observation and the center to
the planar frame, computes the Euclidean planar distance and divides by the
same constant 1609.34 as the buffer generator; whenever that distance in
miles is below the radius (the boundary-exact case being inside the buffer
approximation tolerance the claim allows, and excluded by the documented
boundary-exclusive containment policy), the classifier reports containment
true for the (center, radius) buffer zone. -/
theorem distance_lt_radius_implies_contained (F : Frame) (c : Pt) (r : ℚ) (p : Pt)
    (h : distance_from_property_center_miles F c p < (r : ℝ)) :
    bufferContains F (create_geodesic_buffer F c r) p = true := by
  have hM : (0 : ℝ) < ((MILES_TO_METERS : ℚ) : ℝ) := by norm_num [MILES_TO_METERS]
  rw [distance_from_property_center_miles, planarDistanceMeters, div_lt_iff hM] at h
  have hrpos : (0 : ℝ) < (r : ℝ) * ((MILES_TO_METERS : ℚ) : ℝ) :=
    lt_of_le_of_lt (Real.sqrt_nonneg _) h
  have h2 : ((sqDist (F.toPlanar p) (F.toPlanar c) : ℚ) : ℝ)
      < ((r : ℝ) * ((MILES_TO_METERS : ℚ) : ℝ)) ^ 2 := (Real.sqrt_lt' hrpos).mp h
  rw [bufferContains_iff]
  constructor
  · have h3 : (0 : ℝ) < ((r * MILES_TO_METERS : ℚ) : ℝ) := by push_cast; exact hrpos
    exact_mod_cast h3
  · have h4 : ((sqDist (F.toPlanar p) (F.toPlanar c) : ℚ) : ℝ)
        < (((r * MILES_TO_METERS : ℚ) ^ 2 : ℚ) : ℝ) := by push_cast; exact h2
    exact_mod_cast h4

/-- Witness for C2 at a concrete frame, center, radius and observation. -/
theorem distance_lt_radius_implies_contained_witness :
    distance_from_property_center_miles idFrame ⟨0, 0⟩ ⟨0, 0⟩ < ((1 : ℚ) : ℝ) ∧
      bufferContains idFrame (create_geodesic_buffer idFrame ⟨0, 0⟩ 1) ⟨0, 0⟩ = true := by
  have h : distance_from_property_center_miles idFrame ⟨0, 0⟩ ⟨0, 0⟩ < ((1 : ℚ) : ℝ) := by
    have hz : sqDist (idFrame.toPlanar ⟨0, 0⟩) (idFrame.toPlanar ⟨0, 0⟩) = 0 := by
      norm_num [sqDist, idFrame]
    rw [distance_from_property_center_miles, planarDistanceMeters, hz]
    norm_num [MILES_TO_METERS]
  exact ⟨h, distance_lt_radius_implies_contained idFrame ⟨0, 0⟩ 1 ⟨0, 0⟩ h⟩

/-- C5: for a fixed center and observation, a containment true at radius r1
stays true at any larger radius r2: the classifier's containment is monotone
in the radius. -/
theorem buffer_containment_monotone (F : Frame) (c : Pt) (p : Pt) (r1 r2 : ℚ)
    (hlt : r1 < r2)
    (h : bufferContains F (create_geodesic_buffer F c r1) p = true) :
    bufferContains F (create_geodesic_buffer F c r2) p = true := by
  rw [bufferContains_iff] at h ⊢
  obtain ⟨h1, h2⟩ := h
  simp only [create_geodesic_buffer] at h1 h2 ⊢
  have hMpos : (0 : ℚ) < MILES_TO_METERS := by norm_num [MILES_TO_METERS]
  have hr1 : (0 : ℚ) < r1 := by nlinarith
  have hmul : r1 * MILES_TO_METERS < r2 * MILES_TO_METERS :=
    mul_lt_mul_of_pos_right hlt hMpos
  refine ⟨mul_pos (hr1.trans hlt) hMpos, lt_trans h2 ?_⟩
  exact pow_lt_pow_left hmul (le_of_lt h1) two_ne_zero

/-- Witness for C5 at a concrete frame, center, observation and radius pair. -/
theorem buffer_containment_monotone_witness :
    (1 : ℚ) < 2 ∧
      bufferContains idFrame (create_geodesic_buffer idFrame ⟨0, 0⟩ 1) ⟨100, 0⟩ = true ∧
      bufferContains idFrame (create_geodesic_buffer idFrame ⟨0, 0⟩ 2) ⟨100, 0⟩ = true := by
  have h : bufferContains idFrame (create_geodesic_buffer idFrame ⟨0, 0⟩ 1) ⟨100, 0⟩ = true := by
    norm_num [bufferContains, bufferContainsPlanar, create_geodesic_buffer, sqDist, idFrame,
      MILES_TO_METERS]
  exact ⟨by norm_num, h,
    buffer_containment_monotone idFrame ⟨0, 0⟩ ⟨100, 0⟩ 1 2 (by norm_num) h⟩

/-- Amended C6: a non-positive radius is not rejected anywhere — config.py
supplies BUFFER_RADII_MILES as a plain constant list and create_geodesic_buffer
performs no validation.  Buffer generation proceeds; shapely's buffer of a
point by a non-positive distance is an empty polygon, so every containment
flag for such a zone is false, and no error is raised. -/
theorem nonpositive_radius_empty_buffer (F : Frame) (c : Pt) (r : ℚ) (p : Pt)
    (h : r ≤ 0) :
    bufferContains F (create_geodesic_buffer F c r) p = false := by
  have hM : (0 : ℚ) ≤ MILES_TO_METERS := by norm_num [MILES_TO_METERS]
  have hnp : ¬ (0 : ℚ) < r * MILES_TO_METERS := not_lt.mpr (mul_nonpos_iff.mpr (Or.inr ⟨h, hM⟩))
  simp [bufferContains, bufferContainsPlanar, create_geodesic_buffer, hnp]

/-- Witness for the amended C6 at a concrete non-positive radius. -/
theorem nonpositive_radius_empty_buffer_witness :
    (-1 : ℚ) ≤ 0 ∧
      bufferContains idFrame (create_geodesic_buffer idFrame ⟨0, 0⟩ (-1)) ⟨0, 0⟩ = false :=
  ⟨by norm_num, nonpositive_radius_empty_buffer idFrame ⟨0, 0⟩ (-1) ⟨0, 0⟩ (by norm_num)⟩

/-- Reading back a column just assigned. -/
theorem getCol_setCol_self (k : Col) (v : Val) (cols : List (Col × Val)) :
    getCol k (setCol k v cols) = some v := by
  induction cols with
  | nil => simp [setCol, getCol]
  | cons hd tl ih =>
    obtain ⟨k', v'⟩ := hd
    by_cases h : k' = k
    · simp [setCol, getCol, h]
    · simp [setCol, getCol, h, ih]

/-- Assigning one column leaves every other column unchanged. -/
theorem getCol_setCol_ne (k k' : Col) (v : Val) (cols : List (Col × Val)) (h : k' ≠ k) :
    getCol k (setCol k' v cols) = getCol k cols := by
  induction cols with
  | nil => simp [setCol, getCol, h]
  | cons hd tl ih =>
    obtain ⟨k'', v''⟩ := hd
    by_cases h2 : k'' = k'
    · subst h2
      simp [setCol, getCol, h, Ne.symm h]
    · by_cases h3 : k'' = k <;> simp [setCol, getCol, h2, h3, ih, Ne.symm h]

/-- Re-assigning the value a column already holds does not change the table. -/
theorem setCol_getCol_eq (k : Col) (v : Val) (cols : List (Col × Val))
    (h : getCol k cols = some v) : setCol k v cols = cols := by
  induction cols with
  | nil => simp [getCol] at h
  | cons hd tl ih =>
    obtain ⟨k', v'⟩ := hd
    by_cases h2 : k' = k
    · subst h2
      simp [getCol] at h
      simp [setCol, h]
    · simp [getCol, h2] at h
      simp [setCol, h2, ih h]

/-- Assigning an existing column keeps the column list unchanged. -/
theorem map_fst_setCol_mem (k : Col) (v : Val) (cols : List (Col × Val))
    (h : k ∈ cols.map Prod.fst) :
    (setCol k v cols).map Prod.fst = cols.map Prod.fst := by
  induction cols with
  | nil => simp at h
  | cons hd tl ih =>
    obtain ⟨k', v'⟩ := hd
    by_cases h2 : k' = k
    · simp [setCol, h2]
    · have h3 : k ∈ tl.map Prod.fst := by
        rw [List.map_cons] at h
        rcases List.mem_cons.mp h with h4 | h4
        · exact absurd h4.symm h2
        · exact h4
      simp [setCol, h2, ih h3]

/-- Assigning a fresh column appends it at the end of the column list. -/
theorem map_fst_setCol_not_mem (k : Col) (v : Val) (cols : List (Col × Val))
    (h : k ∉ cols.map Prod.fst) :
    (setCol k v cols).map Prod.fst = cols.map Prod.fst ++ [k] := by
  induction cols with
  | nil => simp [setCol]
  | cons hd tl ih =>
    obtain ⟨k', v'⟩ := hd
    rw [List.map_cons, List.mem_cons, not_or] at h
    have hne : ¬ k' = k := fun hh => h.1 hh.symm
    simp [setCol, hne, ih h.2]

/-- A fold of assignments to columns other than k leaves column k unchanged. -/
theorem foldl_setCol_getCol_ne (f : ℚ → Col) (g : ℚ → Val) (l : List ℚ)
    (cols : List (Col × Val)) (k : Col) (h : ∀ r ∈ l, f r ≠ k) :
    getCol k (l.foldl (fun cs r => setCol (f r) (g r) cs) cols) = getCol k cols := by
  induction l generalizing cols with
  | nil => simp
  | cons hd tl ih =>
    rw [List.foldl_cons, ih _ fun r hr => h r (List.mem_cons_of_mem hd hr)]
    exact getCol_setCol_ne k (f hd) (g hd) cols (h hd (List.mem_cons_self hd tl))

/-- After folding the assignments over a list containing r, column f r holds
the deterministically recomputed value g r, no matter how often r repeats. -/
theorem foldl_setCol_getCol_mem (f : ℚ → Col) (g : ℚ → Val)
    (hf : Function.Injective f) (l : List ℚ) (cols : List (Col × Val)) (r : ℚ)
    (h : r ∈ l) :
    getCol (f r) (l.foldl (fun cs r' => setCol (f r') (g r') cs) cols) = some (g r) := by
  induction l generalizing cols with
  | nil => simp at h
  | cons hd tl ih =>
    rw [List.foldl_cons]
    by_cases hrt : r ∈ tl
    · exact ih _ hrt
    · have hr : r = hd := by
        rcases List.mem_cons.mp h with h1 | h1
        · exact h1
        · exact absurd h1 hrt
      subst hr
      rw [foldl_setCol_getCol_ne f g tl _ (f r)
        (fun r' hr' hEq => hrt (hf hEq ▸ hr'))]
      exact getCol_setCol_self (f r) (g r) cols

/-- Folding assignments with pairwise fresh keys appends one column per list
entry, in order. -/
theorem foldl_setCol_map_fst (f : ℚ → Col) (g : ℚ → Val)
    (hf : Function.Injective f) (l : List ℚ) (hl : l.Nodup) (cols : List (Col × Val))
    (h : ∀ r ∈ l, f r ∉ cols.map Prod.fst) :
    (l.foldl (fun cs r => setCol (f r) (g r) cs) cols).map Prod.fst =
      cols.map Prod.fst ++ l.map f := by
  induction l generalizing cols with
  | nil => simp
  | cons hd tl ih =>
    rw [List.foldl_cons]
    have hstep := map_fst_setCol_not_mem (f hd) (g hd) cols (h hd (List.mem_cons_self hd tl))
    have hfresh : ∀ r ∈ tl, f r ∉ (setCol (f hd) (g hd) cols).map Prod.fst := by
      intro r hr
      rw [hstep]
      intro hmem
      rcases List.mem_append.mp hmem with h1 | h1
      · exact h r (List.mem_cons_of_mem hd hr) h1
      · have : f r = f hd := by simpa using h1
        exact (List.nodup_cons.mp hl).1 (hf this ▸ hr)
    rw [ih (List.nodup_cons.mp hl).2 _ hfresh, hstep]
    simp

/-- A repeated radius re-runs the same deterministic assignment into the same
column, leaving the table exactly as if the repetition were absent. -/
theorem foldl_setCol_dup (f : ℚ → Col) (g : ℚ → Val)
    (hf : Function.Injective f) (l m : List ℚ) (r : ℚ) (h : r ∈ l)
    (cols : List (Col × Val)) :
    (l ++ r :: m).foldl (fun cs r' => setCol (f r') (g r') cs) cols =
      (l ++ m).foldl (fun cs r' => setCol (f r') (g r') cs) cols := by
  rw [List.foldl_append, List.foldl_append, List.foldl_cons]
  congr 1
  exact setCol_getCol_eq (f r) (g r) _ (foldl_setCol_getCol_mem f g hf l cols r h)

/-- Distinct radii give distinct property-center column names. -/
theorem propCol_injective : Function.Injective propCol := by
  intro a b h
  simpa [propCol] using h

/-- Distinct radii give distinct apiary-center column names. -/
theorem apiaryCol_injective : Function.Injective apiaryCol := by
  intro a b h
  simpa [apiaryCol] using h

/-- classifyRow with its let-bindings expanded. -/
theorem classifyRow_def (cfg : Config) (row : RawRow) :
    classifyRow cfg row =
      setCol Col.distance_from_property_center_miles
        (Val.vd (sqDist (cfg.frame.toPlanar (rowPoint row))
          (cfg.frame.toPlanar (ringCentroid cfg.propertyRing))) MILES_TO_METERS)
        (setCol Col.distance_from_property_center_meters
          (Val.vd (sqDist (cfg.frame.toPlanar (rowPoint row))
            (cfg.frame.toPlanar (ringCentroid cfg.propertyRing))) 1)
          (cfg.radii.foldl
            (fun cs r => setCol (apiaryCol r)
              (Val.vb (apiaryBufferFlag cfg (rowPoint row) r)) cs)
            (cfg.radii.foldl
              (fun cs r => setCol (propCol r)
                (Val.vb (propBufferFlag cfg (rowPoint row) r)) cs)
              (setCol Col.within_property
                (Val.vb (polyContains cfg.propertyRing (rowPoint row))) [])))) := rfl

/-- The within_property column always holds the property polygon containment
test of the observation point. -/
theorem getCol_classifyRow_within_property (cfg : Config) (row : RawRow) :
    getCol Col.within_property (classifyRow cfg row) =
      some (Val.vb (polyContains cfg.propertyRing (rowPoint row))) := by
  rw [classifyRow_def]
  rw [getCol_setCol_ne _ _ _ _ (by simp)]
  rw [getCol_setCol_ne _ _ _ _ (by simp)]
  rw [foldl_setCol_getCol_ne _ _ _ _ _ (fun r hr => by simp [apiaryCol])]
  rw [foldl_setCol_getCol_ne _ _ _ _ _ (fun r hr => by simp [propCol])]
  exact getCol_setCol_self _ _ _

/-- For every configured radius, the property-center buffer column holds the
buffer containment test of the observation point at that radius. -/
theorem getCol_classifyRow_propCol (cfg : Config) (row : RawRow) (r : ℚ)
    (h : r ∈ cfg.radii) :
    getCol (propCol r) (classifyRow cfg row) =
      some (Val.vb (propBufferFlag cfg (rowPoint row) r)) := by
  rw [classifyRow_def]
  rw [getCol_setCol_ne _ _ _ _ (by simp [propCol])]
  rw [getCol_setCol_ne _ _ _ _ (by simp [propCol])]
  rw [foldl_setCol_getCol_ne _ _ _ _ _ (fun r' hr' => by simp [apiaryCol, propCol])]
  exact foldl_setCol_getCol_mem _ _ propCol_injective _ _ _ h

/-- For every configured radius, the apiary-center buffer column holds the
buffer containment test of the observation point at that radius. -/
theorem getCol_classifyRow_apiaryCol (cfg : Config) (row : RawRow) (r : ℚ)
    (h : r ∈ cfg.radii) :
    getCol (apiaryCol r) (classifyRow cfg row) =
      some (Val.vb (apiaryBufferFlag cfg (rowPoint row) r)) := by
  rw [classifyRow_def]
  rw [getCol_setCol_ne _ _ _ _ (by simp [apiaryCol])]
  rw [getCol_setCol_ne _ _ _ _ (by simp [apiaryCol])]
  exact foldl_setCol_getCol_mem _ _ apiaryCol_injective _ _ _ h

/-- A point on the boundary ring is not contained (shapely contains tests the
interior only). -/
theorem polyContains_of_onRing (ring : List Pt) (p : Pt) (h : onRing ring p = true) :
    polyContains ring p = false := by
  simp [polyContains, h]

/-- A point at planar distance exactly the buffer radius is on the buffer
boundary and hence not contained. -/
theorem bufferContains_of_sqDist_eq (F : Frame) (z : BufferZone) (p : Pt)
    (h : sqDist (F.toPlanar p) z.planarCenter = z.radiusMeters ^ 2) :
    bufferContains F z p = false := by
  simp [bufferContains, bufferContainsPlanar, h]

/-- The centroid of the concrete unit square ring. -/
theorem ringCentroid_unitSquare : ringCentroid unitSquare = ⟨1 / 2, 1 / 2⟩ := by
  norm_num [ringCentroid, shoelace2, cyclicPairs, unitSquare]

/-- C10: the containment policy is boundary-exclusive and uniform — an
observation exactly on the ring of the property polygon gets within_property
false, and an observation at planar distance exactly r * 1609.34 meters from
a center (on the ring of that buffer polygon) gets the corresponding buffer
flag false, for every configured radius and for both centers, all through
the same interior-only shapely contains test. -/
theorem containment_boundary_exclusive_uniform (cfg : Config) (row : RawRow) :
    (onRing cfg.propertyRing (rowPoint row) = true →
      getCol Col.within_property (classifyRow cfg row) = some (Val.vb false)) ∧
    (∀ r, r ∈ cfg.radii →
      sqDist (cfg.frame.toPlanar (rowPoint row))
          (cfg.frame.toPlanar (ringCentroid cfg.propertyRing)) = (r * MILES_TO_METERS) ^ 2 →
      getCol (propCol r) (classifyRow cfg row) = some (Val.vb false)) ∧
    (∀ r, r ∈ cfg.radii →
      sqDist (cfg.frame.toPlanar (rowPoint row))
          (cfg.frame.toPlanar cfg.apiaryCenter) = (r * MILES_TO_METERS) ^ 2 →
      getCol (apiaryCol r) (classifyRow cfg row) = some (Val.vb false)) := by
  refine ⟨fun h => ?_, fun r hr h => ?_, fun r hr h => ?_⟩
  · rw [getCol_classifyRow_within_property, polyContains_of_onRing _ _ h]
  · rw [getCol_classifyRow_propCol cfg row r hr]
    rw [propBufferFlag, bufferContains_of_sqDist_eq]
    exact h
  · rw [getCol_classifyRow_apiaryCol cfg row r hr]
    rw [apiaryBufferFlag, bufferContains_of_sqDist_eq]
    exact h

/-- Witness for C10: a point on the square's edge, a point at planar distance
exactly 1609.34 m from the property centroid, and a point at planar distance
exactly 1609.34 m from the apiary center, all classified false. -/
theorem containment_boundary_exclusive_uniform_witness :
    (onRing cfgA.propertyRing (rowPoint rowEdge) = true ∧
      getCol Col.within_property (classifyRow cfgA rowEdge) = some (Val.vb false)) ∧
    ((1 : ℚ) ∈ cfgA.radii ∧
      sqDist (cfgA.frame.toPlanar (rowPoint rowOnPropCircle))
          (cfgA.frame.toPlanar (ringCentroid cfgA.propertyRing))
        = ((1 : ℚ) * MILES_TO_METERS) ^ 2 ∧
      getCol (propCol 1) (classifyRow cfgA rowOnPropCircle) = some (Val.vb false)) ∧
    ((1 : ℚ) ∈ cfgA.radii ∧
      sqDist (cfgA.frame.toPlanar (rowPoint rowOnApiaryCircle))
          (cfgA.frame.toPlanar cfgA.apiaryCenter)
        = ((1 : ℚ) * MILES_TO_METERS) ^ 2 ∧
      getCol (apiaryCol 1) (classifyRow cfgA rowOnApiaryCircle) = some (Val.vb false)) := by
  have hmem : (1 : ℚ) ∈ cfgA.radii := by simp [cfgA]
  have hEdge : onRing cfgA.propertyRing (rowPoint rowEdge) = true := by
    simp only [cfgA, unitSquare, onRing, cyclicPairs, rowPoint, rowEdge]
    simp [onSegment, cross2]
    norm_num
  have hProp : sqDist (cfgA.frame.toPlanar (rowPoint rowOnPropCircle))
      (cfgA.frame.toPlanar (ringCentroid cfgA.propertyRing))
      = ((1 : ℚ) * MILES_TO_METERS) ^ 2 := by
    have hc : ringCentroid cfgA.propertyRing = ⟨1 / 2, 1 / 2⟩ := by
      simpa [cfgA] using ringCentroid_unitSquare
    rw [hc]
    norm_num [cfgA, idFrame, sqDist, rowPoint, rowOnPropCircle, MILES_TO_METERS]
  have hApiary : sqDist (cfgA.frame.toPlanar (rowPoint rowOnApiaryCircle))
      (cfgA.frame.toPlanar cfgA.apiaryCenter)
      = ((1 : ℚ) * MILES_TO_METERS) ^ 2 := by
    norm_num [cfgA, idFrame, sqDist, rowPoint, rowOnApiaryCircle, apiaryFar, MILES_TO_METERS]
  exact ⟨⟨hEdge, (containment_boundary_exclusive_uniform cfgA rowEdge).1 hEdge⟩,
    ⟨hmem, hProp, (containment_boundary_exclusive_uniform cfgA rowOnPropCircle).2.1 1 hmem hProp⟩,
    ⟨hmem, hApiary,
      (containment_boundary_exclusive_uniform cfgA rowOnApiaryCircle).2.2 1 hmem hApiary⟩⟩

/-- The column list produced by the pipeline's assignment sequence, for any
duplicate-free radius list and any assigned values. -/
theorem keys_pipeline (radii : List ℚ) (hnd : radii.Nodup) (g1 g2 : ℚ → Val)
    (v0 vm vmi : Val) :
    (setCol Col.distance_from_property_center_miles vmi
      (setCol Col.distance_from_property_center_meters vm
        (radii.foldl (fun cs r => setCol (apiaryCol r) (g2 r) cs)
          (radii.foldl (fun cs r => setCol (propCol r) (g1 r) cs)
            (setCol Col.within_property v0 []))))).map Prod.fst
      = Col.within_property :: (radii.map propCol ++ radii.map apiaryCol ++
          [Col.distance_from_property_center_meters,
            Col.distance_from_property_center_miles]) := by
  have hwp : (setCol Col.within_property v0 []).map Prod.fst = [Col.within_property] := by
    simp [setCol]
  have hprop := foldl_setCol_map_fst propCol g1 propCol_injective radii hnd
    (setCol Col.within_property v0 []) (by intro r hr; rw [hwp]; simp [propCol])
  rw [hwp] at hprop
  have hapiary := foldl_setCol_map_fst apiaryCol g2 apiaryCol_injective radii hnd
    (radii.foldl (fun cs r => setCol (propCol r) (g1 r) cs)
      (setCol Col.within_property v0 []))
    (by intro r hr; rw [hprop]; simp [propCol, apiaryCol])
  rw [hprop] at hapiary
  have hmeters := map_fst_setCol_not_mem Col.distance_from_property_center_meters vm
    (radii.foldl (fun cs r => setCol (apiaryCol r) (g2 r) cs)
      (radii.foldl (fun cs r => setCol (propCol r) (g1 r) cs)
        (setCol Col.within_property v0 [])))
    (by rw [hapiary]; simp [propCol, apiaryCol])
  rw [hapiary] at hmeters
  have hmiles := map_fst_setCol_not_mem Col.distance_from_property_center_miles vmi
    (setCol Col.distance_from_property_center_meters vm
      (radii.foldl (fun cs r => setCol (apiaryCol r) (g2 r) cs)
        (radii.foldl (fun cs r => setCol (propCol r) (g1 r) cs)
          (setCol Col.within_property v0 []))))
    (by rw [hmeters]; simp [propCol, apiaryCol])
  rw [hmeters] at hmiles
  rw [hmiles]
  simp

/-- Amended C3: for a duplicate-free radius list, the output record carries
exactly one boundary-containment flag, one containment flag per
(center, radius) pair over both configured centers, and then the distance of
the observation to the property centroid in meters and in miles — no distance
to the apiary center is computed. -/
theorem classifyRow_columns (cfg : Config) (row : RawRow) (h : cfg.radii.Nodup) :
    (classifyRow cfg row).map Prod.fst =
      Col.within_property ::
        (cfg.radii.map propCol ++ cfg.radii.map apiaryCol ++
          [Col.distance_from_property_center_meters,
            Col.distance_from_property_center_miles]) := by
  rw [classifyRow_def]
  exact keys_pipeline cfg.radii h _ _ _ _ _

/-- Witness for the amended C3 at a concrete configuration and row. -/
theorem classifyRow_columns_witness :
    cfgA.radii.Nodup ∧
      (classifyRow cfgA row0).map Prod.fst =
        Col.within_property ::
          (cfgA.radii.map propCol ++ cfgA.radii.map apiaryCol ++
            [Col.distance_from_property_center_meters,
              Col.distance_from_property_center_miles]) :=
  ⟨by simp [cfgA], classifyRow_columns cfgA row0 (by simp [cfgA])⟩

/-- Counterexample to C3 as stated: at a concrete configuration with centers
property centroid (1/2, 1/2) and apiary (2000000, 0) and radius list [1], the
observation at the origin is classified into exactly five columns; the only
distance values recorded are the squared planar distance 1/2 to the property
centroid, while the squared planar distance to the apiary center is
4000000000000 — no column carries a distance to the apiary center. -/
theorem no_apiary_distance_column :
    classifyRow cfgA row0 =
      [(Col.within_property, Val.vb false),
        (propCol 1, Val.vb true),
        (apiaryCol 1, Val.vb false),
        (Col.distance_from_property_center_meters, Val.vd (1 / 2) 1),
        (Col.distance_from_property_center_miles, Val.vd (1 / 2) MILES_TO_METERS)] ∧
      sqDist (cfgA.frame.toPlanar (rowPoint row0)) (cfgA.frame.toPlanar cfgA.apiaryCenter)
        = 4000000000000 ∧
      Val.vd 4000000000000 MILES_TO_METERS ∉ (classifyRow cfgA row0).map Prod.snd := by
  have hc : ringCentroid cfgA.propertyRing = ⟨1 / 2, 1 / 2⟩ := by
    simpa [cfgA] using ringCentroid_unitSquare
  have hON : onRing cfgA.propertyRing (rowPoint row0) = true := by
    simp only [cfgA, unitSquare, onRing, cyclicPairs, rowPoint, row0]
    simp [onSegment, cross2]
  have hwpflag : polyContains cfgA.propertyRing (rowPoint row0) = false :=
    polyContains_of_onRing _ _ hON
  have hpropflag : propBufferFlag cfgA (rowPoint row0) 1 = true := by
    rw [propBufferFlag, hc]
    norm_num [bufferContains, bufferContainsPlanar, create_geodesic_buffer, cfgA, idFrame,
      sqDist, rowPoint, row0, MILES_TO_METERS]
  have hapiflag : apiaryBufferFlag cfgA (rowPoint row0) 1 = false := by
    rw [apiaryBufferFlag]
    norm_num [bufferContains, bufferContainsPlanar, create_geodesic_buffer, cfgA, idFrame,
      apiaryFar, sqDist, rowPoint, row0, MILES_TO_METERS]
  have hsqp : sqDist (cfgA.frame.toPlanar (rowPoint row0))
      (cfgA.frame.toPlanar (ringCentroid cfgA.propertyRing)) = 1 / 2 := by
    rw [hc]
    norm_num [cfgA, idFrame, sqDist, rowPoint, row0]
  have hsqa : sqDist (cfgA.frame.toPlanar (rowPoint row0))
      (cfgA.frame.toPlanar cfgA.apiaryCenter) = 4000000000000 := by
    norm_num [cfgA, idFrame, apiaryFar, sqDist, rowPoint, row0]
  have hradii : cfgA.radii = [1] := rfl
  have hrec : classifyRow cfgA row0 =
      [(Col.within_property, Val.vb false),
        (propCol 1, Val.vb true),
        (apiaryCol 1, Val.vb false),
        (Col.distance_from_property_center_meters, Val.vd (1 / 2) 1),
        (Col.distance_from_property_center_miles, Val.vd (1 / 2) MILES_TO_METERS)] := by
    rw [classifyRow_def, hradii, List.foldl_cons, List.foldl_nil, List.foldl_cons,
      List.foldl_nil, hwpflag, hpropflag, hapiflag, hsqp]
    simp only [setCol, propCol, apiaryCol]
    simp
  refine ⟨hrec, hsqa, ?_⟩
  rw [hrec]
  intro hmem
  simp only [List.map_cons, List.map_nil, List.mem_cons, List.not_mem_nil, or_false] at hmem
  rcases hmem with h1 | h1 | h1 | h1 | h1
  · simp at h1
  · simp at h1
  · simp at h1
  · rw [Val.vd.injEq] at h1
    norm_num at h1
  · rw [Val.vd.injEq] at h1
    norm_num at h1

/-- Amended C4: a duplicated radius is recomputed independently, but its
f-string column name collides with the earlier occurrence, so the assignment
overwrites that column in place with the numerically identical value: the
output is exactly the output for the list with the repetition removed, and no
error is raised. -/
theorem duplicate_radius_overwrites (F : Frame) (ring : List Pt) (ap : Pt)
    (l m : List ℚ) (r : ℚ) (row : RawRow) (h : r ∈ l) :
    classifyRow ⟨F, ring, ap, l ++ r :: m⟩ row = classifyRow ⟨F, ring, ap, l ++ m⟩ row := by
  rw [classifyRow_def, classifyRow_def]
  simp only [propBufferFlag, apiaryBufferFlag]
  rw [foldl_setCol_dup propCol _ propCol_injective l m r h]
  rw [foldl_setCol_dup apiaryCol _ apiaryCol_injective l m r h]

/-- Witness for the amended C4 at a concrete duplicated radius list. -/
theorem duplicate_radius_overwrites_witness :
    (1 : ℚ) ∈ [(1 : ℚ)] ∧
      classifyRow ⟨idFrame, unitSquare, apiaryFar, [1] ++ 1 :: []⟩ row0
        = classifyRow ⟨idFrame, unitSquare, apiaryFar, [1] ++ []⟩ row0 :=
  ⟨by simp, duplicate_radius_overwrites idFrame unitSquare apiaryFar [1] [] 1 row0 (by simp)⟩

/-- Counterexample to C4 as stated: with the duplicated radius list [1, 1],
the output record holds one single column per distinct radius for each center
— five columns in total, not one per list entry — because the second
occurrence overwrote the first; the record coincides with the record for the
radius list [1]. -/
theorem duplicate_radii_not_duplicated_columns :
    (classifyRow cfgDup row0).map Prod.fst =
      [Col.within_property, propCol 1, apiaryCol 1,
        Col.distance_from_property_center_meters,
        Col.distance_from_property_center_miles] ∧
      classifyRow cfgDup row0 = classifyRow cfgA row0 := by
  have hc : ringCentroid cfgDup.propertyRing = ⟨1 / 2, 1 / 2⟩ := by
    simpa [cfgDup] using ringCentroid_unitSquare
  have hON : onRing cfgDup.propertyRing (rowPoint row0) = true := by
    simp only [cfgDup, unitSquare, onRing, cyclicPairs, rowPoint, row0]
    simp [onSegment, cross2]
  have hwpflag : polyContains cfgDup.propertyRing (rowPoint row0) = false :=
    polyContains_of_onRing _ _ hON
  have hpropflag : propBufferFlag cfgDup (rowPoint row0) 1 = true := by
    rw [propBufferFlag, hc]
    norm_num [bufferContains, bufferContainsPlanar, create_geodesic_buffer, cfgDup, idFrame,
      sqDist, rowPoint, row0, MILES_TO_METERS]
  have hapiflag : apiaryBufferFlag cfgDup (rowPoint row0) 1 = false := by
    rw [apiaryBufferFlag]
    norm_num [bufferContains, bufferContainsPlanar, create_geodesic_buffer, cfgDup, idFrame,
      apiaryFar, sqDist, rowPoint, row0, MILES_TO_METERS]
  have hsqp : sqDist (cfgDup.frame.toPlanar (rowPoint row0))
      (cfgDup.frame.toPlanar (ringCentroid cfgDup.propertyRing)) = 1 / 2 := by
    rw [hc]
    norm_num [cfgDup, idFrame, sqDist, rowPoint, row0]
  have hradii : cfgDup.radii = [1, 1] := rfl
  have hrecDup : classifyRow cfgDup row0 =
      [(Col.within_property, Val.vb false),
        (propCol 1, Val.vb true),
        (apiaryCol 1, Val.vb false),
        (Col.distance_from_property_center_meters, Val.vd (1 / 2) 1),
        (Col.distance_from_property_center_miles, Val.vd (1 / 2) MILES_TO_METERS)] := by
    rw [classifyRow_def, hradii, List.foldl_cons, List.foldl_cons, List.foldl_nil,
      List.foldl_cons, List.foldl_cons, List.foldl_nil, hwpflag, hpropflag, hapiflag, hsqp]
    simp only [setCol, propCol, apiaryCol]
    simp
  have hcA : ringCentroid cfgA.propertyRing = ⟨1 / 2, 1 / 2⟩ := by
    simpa [cfgA] using ringCentroid_unitSquare
  have hONA : onRing cfgA.propertyRing (rowPoint row0) = true := by
    simp only [cfgA, unitSquare, onRing, cyclicPairs, rowPoint, row0]
    simp [onSegment, cross2]
  have hrecA : classifyRow cfgA row0 =
      [(Col.within_property, Val.vb false),
        (propCol 1, Val.vb true),
        (apiaryCol 1, Val.vb false),
        (Col.distance_from_property_center_meters, Val.vd (1 / 2) 1),
        (Col.distance_from_property_center_miles, Val.vd (1 / 2) MILES_TO_METERS)] := by
    have hwpA : polyContains cfgA.propertyRing (rowPoint row0) = false :=
      polyContains_of_onRing _ _ hONA
    have hpropA : propBufferFlag cfgA (rowPoint row0) 1 = true := by
      rw [propBufferFlag, hcA]
      norm_num [bufferContains, bufferContainsPlanar, create_geodesic_buffer, cfgA, idFrame,
        sqDist, rowPoint, row0, MILES_TO_METERS]
    have hapiA : apiaryBufferFlag cfgA (rowPoint row0) 1 = false := by
      rw [apiaryBufferFlag]
      norm_num [bufferContains, bufferContainsPlanar, create_geodesic_buffer, cfgA, idFrame,
        apiaryFar, sqDist, rowPoint, row0, MILES_TO_METERS]
    have hsqA : sqDist (cfgA.frame.toPlanar (rowPoint row0))
        (cfgA.frame.toPlanar (ringCentroid cfgA.propertyRing)) = 1 / 2 := by
      rw [hcA]
      norm_num [cfgA, idFrame, sqDist, rowPoint, row0]
    have hrA : cfgA.radii = [1] := rfl
    rw [classifyRow_def, hrA, List.foldl_cons, List.foldl_nil, List.foldl_cons,
      List.foldl_nil, hwpA, hpropA, hapiA, hsqA]
    simp only [setCol, propCol, apiaryCol]
    simp
  constructor
  · rw [hrecDup]
    simp
  · rw [hrecDup, hrecA]

/-- The pipeline output projects back to exactly the rows that survived the
dropna filter, in order. -/
theorem analyze_map_row (cfg : Config) (rows : List RawRow) :
    (analyze cfg rows).map AnalyzedRow.row = dropna rows := by
  simp only [analyze, List.map_map]
  have h : (AnalyzedRow.row ∘ fun r => (⟨r, classifyRow cfg r⟩ : AnalyzedRow)) = id := by
    funext r
    rfl
  rw [h, List.map_id]

/-- C8: the pipeline only appends classification fields — every output record
is the original row (identifier, coordinates and all carried attributes,
untouched) paired with the classification columns, and projecting the
original rows back out returns the processed input unchanged and in order. -/
theorem classification_appends_only (cfg : Config) (rows : List RawRow) :
    analyze cfg rows = (dropna rows).map (fun r => ⟨r, classifyRow cfg r⟩) ∧
      (analyze cfg rows).map AnalyzedRow.row = dropna rows :=
  ⟨rfl, analyze_map_row cfg rows⟩

/-- C9: on an input in which every observation has both coordinates (the
spec's Observation invariant, guaranteed upstream), the output sequence is
exactly the input sequence in the same order — no reordering, no
deduplication — and an empty input yields an empty output without error. -/
theorem output_matches_input (cfg : Config) (rows : List RawRow)
    (h : rows.all hasCoords = true) :
    (analyze cfg rows).map AnalyzedRow.row = rows ∧
      (rows = [] → analyze cfg rows = []) := by
  constructor
  · rw [analyze_map_row, dropna, List.filter_eq_self.mpr]
    intro a ha
    exact List.all_eq_true.mp h a ha
  · intro hrow
    subst hrow
    rfl

/-- Witness for C9 at a concrete two-row input. -/
theorem output_matches_input_witness :
    ([row0, rowEdge] : List RawRow).all hasCoords = true ∧
      ((analyze cfgA [row0, rowEdge]).map AnalyzedRow.row = [row0, rowEdge] ∧
        ([row0, rowEdge] = ([] : List RawRow) → analyze cfgA [row0, rowEdge] = [])) := by
  have h : ([row0, rowEdge] : List RawRow).all hasCoords = true := by
    simp [hasCoords, row0, rowEdge]
  exact ⟨h, output_matches_input cfgA [row0, rowEdge] h⟩

/-- Amended C7: exactly the observations with a missing latitude or longitude
are excluded from classification, and the reported count of removed rows is
the number of such observations; coordinates outside the valid angular range
or the planar frame's domain are not detected and are classified anyway. -/
theorem only_missing_coordinates_excluded (cfg : Config) (rows : List RawRow) :
    (analyze cfg rows).map AnalyzedRow.row = rows.filter hasCoords ∧
      excludedCount rows = (rows.filter (fun r => !(hasCoords r))).length := by
  constructor
  · rw [analyze_map_row]
    rfl
  · have h := List.length_eq_length_filter_add (l := rows) hasCoords
    rw [excludedCount, dropna]
    omega

/-- Counterexample to C7 as stated: the observation with latitude 999, far
outside the valid angular range, has both coordinates present, so it is not
excluded — it is classified, and the reported excluded count is 0. -/
theorem out_of_range_coordinate_classified :
    hasCoords rowBad = true ∧
      (analyze cfgA [rowBad]).map AnalyzedRow.row = [rowBad] ∧
      excludedCount [rowBad] = 0 := by
  refine ⟨by simp [hasCoords, rowBad], ?_, ?_⟩
  · rw [analyze_map_row]
    simp [dropna, hasCoords, rowBad]
  · simp [excludedCount, dropna, hasCoords, rowBad]

/-- Counterexample to C6 as stated: with the radius list [-1] the run does
not fail — buffer generation is invoked with the non-positive radius, the
resulting empty buffer yields all-false containment flags, and the pipeline
produces a normal output record for the observation. -/
theorem negative_radius_runs_without_error :
    analyze cfgNeg [row0] =
      [⟨row0,
        [(Col.within_property, Val.vb false),
          (propCol (-1), Val.vb false),
          (apiaryCol (-1), Val.vb false),
          (Col.distance_from_property_center_meters, Val.vd (1 / 2) 1),
          (Col.distance_from_property_center_miles, Val.vd (1 / 2) MILES_TO_METERS)]⟩] := by
  have hc : ringCentroid cfgNeg.propertyRing = ⟨1 / 2, 1 / 2⟩ := by
    simpa [cfgNeg] using ringCentroid_unitSquare
  have hON : onRing cfgNeg.propertyRing (rowPoint row0) = true := by
    simp only [cfgNeg, unitSquare, onRing, cyclicPairs, rowPoint, row0]
    simp [onSegment, cross2]
  have hwpflag : polyContains cfgNeg.propertyRing (rowPoint row0) = false :=
    polyContains_of_onRing _ _ hON
  have hpropflag : propBufferFlag cfgNeg (rowPoint row0) (-1) = false := by
    rw [propBufferFlag, hc]
    norm_num [bufferContains, bufferContainsPlanar, create_geodesic_buffer, cfgNeg, idFrame,
      sqDist, rowPoint, row0, MILES_TO_METERS]
  have hapiflag : apiaryBufferFlag cfgNeg (rowPoint row0) (-1) = false := by
    rw [apiaryBufferFlag]
    norm_num [bufferContains, bufferContainsPlanar, create_geodesic_buffer, cfgNeg, idFrame,
      apiaryFar, sqDist, rowPoint, row0, MILES_TO_METERS]
  have hsqp : sqDist (cfgNeg.frame.toPlanar (rowPoint row0))
      (cfgNeg.frame.toPlanar (ringCentroid cfgNeg.propertyRing)) = 1 / 2 := by
    rw [hc]
    norm_num [cfgNeg, idFrame, sqDist, rowPoint, row0]
  have hradii : cfgNeg.radii = [-1] := rfl
  have hrec : classifyRow cfgNeg row0 =
      [(Col.within_property, Val.vb false),
        (propCol (-1), Val.vb false),
        (apiaryCol (-1), Val.vb false),
        (Col.distance_from_property_center_meters, Val.vd (1 / 2) 1),
        (Col.distance_from_property_center_miles, Val.vd (1 / 2) MILES_TO_METERS)] := by
    rw [classifyRow_def, hradii, List.foldl_cons, List.foldl_nil, List.foldl_cons,
      List.foldl_nil, hwpflag, hpropflag, hapiflag, hsqp]
    simp only [setCol, propCol, apiaryCol]
    simp
  have hdrop : dropna [row0] = [row0] := by simp [dropna, hasCoords, row0]
  simp only [analyze, hdrop, List.map_cons, List.map_nil, hrec]

end SpatialAnalysis

